import Mathlib

/-!
Formal model of a character-level RNN training notebook.  The notebook defines
a Model class (configuration, sampling loop, optimization wiring), a training
session over epochs and batches, and a save/load step for configuration,
vocabulary and parameters.  Pure fragments of the Python code are translated
into executable Lean functions; calls into the TensorFlow framework (forward
pass, automatic differentiation) are abstract oracles passed as arguments,
while the framework operations whose formulas are fixed at the call site
(clip_by_global_norm, AdamOptimizer) are modelled over the reals.
-/

/-- Cumulative sums of a list, as np.cumsum: entry i is the sum of the first
i + 1 weights. -/
def cumsum : List ℚ → List ℚ
  | [] => []
  | w :: ws => w :: (cumsum ws).map (fun x => w + x)

/-- Model of weighted_pick inside Model.sample:
t = np.cumsum(weights); s = np.sum(weights); np.searchsorted(t, rand * s)
with side left returns the first index i with rand * s ≤ t i, or the length
of t when no entry qualifies.  The argument r models the np.random.rand
draw, which lies in the half-open unit interval. -/
def weighted_pick (weights : List ℚ) (r : ℚ) : ℕ :=
  List.findIdx (fun x => decide (r * weights.sum ≤ x)) (cumsum weights)

/-- Python IndexError raised by list or string indexing out of range. -/
inductive SampleErr
  | indexError
deriving DecidableEq

/-- Warm-up loop of Model.sample: for each char in prime drop-last, one
sess.run of final_state with input vocab char, keeping only the recurrent
state.  The oracle step s i returns the pair (final_state, probs row) of one
forward evaluation of the inference graph on character index i from state
s. -/
def warmup {σ : Type} (step : σ → ℕ → σ × List ℚ) (vocab : Char → ℕ) :
    σ → List Char → σ
  | s, [] => s
  | s, c :: cs => warmup step vocab (step s (vocab c)).1 cs

/-- Generation loop of Model.sample: at each of the remaining m steps, run one
forward evaluation from the current state on the current character, pick an
index in the probability row by weighted_pick fed with the n-th draw of the
NumPy stream, look the character up in chars (Python raises IndexError when
out of range), append it to the accumulator ret and feed it back. -/
def genLoop {σ : Type} (step : σ → ℕ → σ × List ℚ) (chars : List Char)
    (vocab : Char → ℕ) (rand : ℕ → ℚ) :
    σ → Char → List Char → ℕ → ℕ → Except SampleErr (List Char)
  | _, _, ret, 0, _ => .ok ret
  | s, c, ret, m + 1, n =>
    let pr := step s (vocab c)
    match chars.get? (weighted_pick pr.2 (rand n)) with
    | none => .error .indexError
    | some pred => genLoop step chars vocab rand pr.1 pred (ret ++ [pred]) m (n + 1)

/-- The list of the m characters generated step by step, each drawn by
weighted_pick from the probability row of the current forward evaluation;
total description of the loop used to state what Model.sample returns when
every pick is in range. -/
def genList {σ : Type} (step : σ → ℕ → σ × List ℚ) (chars : List Char)
    (vocab : Char → ℕ) (rand : ℕ → ℚ) : σ → Char → ℕ → ℕ → List Char
  | _, _, 0, _ => []
  | s, c, m + 1, n =>
    let pr := step s (vocab c)
    let pred := chars.getD (weighted_pick pr.2 (rand n)) ' '
    pred :: genList step chars vocab rand pr.1 pred m (n + 1)

/-- Model.sample of the notebook: zero-initialize the recurrent state, feed
every character of prime except the last through the model keeping only the
state, then generate num characters one step at a time starting from the last
character of prime, returning prime concatenated with the generated
characters.  Accessing the last character of an empty prime models the Python
IndexError of prime[-1]. -/
def Model.sample {σ : Type} (step : σ → ℕ → σ × List ℚ) (zero : σ)
    (chars : List Char) (vocab : Char → ℕ) (rand : ℕ → ℚ) (num : ℕ)
    (prime : List Char) : Except SampleErr (List Char) :=
  let state := warmup step vocab zero prime.dropLast
  match prime.getLast? with
  | none => .error .indexError
  | some c => genLoop step chars vocab rand state c prime num 0

/-- ConfigError of the design's error taxonomy (invalid dimensions at
construction).  The source constructor contains no validation and no raise,
so no value of this type is ever produced by the model of the constructor. -/
inductive ConfigError
  | badDims
deriving DecidableEq

/-- Hyperparameters recorded by Model constructor: the literal assignments at
the top of the constructor (rnn_size 128, num_layers 1, lr variable created at
0.0, clip ceiling 5) together with effective batch and sequence dimensions. -/
structure ModelCfg where
  batch_size : ℤ
  seq_length : ℤ
  vocab_size : ℤ
  rnn_size : ℤ
  num_layers : ℤ
  lr0 : ℚ
  clip_norm : ℚ
deriving DecidableEq

/-- Model constructor of the notebook: rnn_size = 128, num_layers = 1; when
training is false, batch_size and seq_length are forced to 1; the learning
rate variable is created at 0.0 and the gradient clip ceiling is the literal
5.  The source performs no check of vocab_size or seq_length and has no error
path, so the result is always ok. -/
def Model.init (batch_size seq_length vocab_size : ℤ) (training : Bool) :
    Except ConfigError ModelCfg :=
  let bs := if training then batch_size else 1
  let sl := if training then seq_length else 1
  .ok ⟨bs, sl, vocab_size, 128, 1, 0, 5⟩

/-- One checkpoint written by saver.save, keyed by the global step number. -/
structure Checkpoint (P : Type) where
  step : ℕ
  params : P
deriving DecidableEq

/-- Modelled from the spec: contents of the save directory produced by the
training cell and read by the sampling cell (config.pkl, chars_vocab.pkl, and
the TensorFlow checkpoint); pickling and the TensorFlow saver are external
collaborators, modelled as fields holding the persisted values. -/
structure SaveDir (P : Type) where
  config : Option (ℕ × ℕ × ℕ)
  chars_vocab : Option (List Char × List (Char × ℕ))
  ckpt : Option (Checkpoint P)

/-- Modelled from the spec: Save of the Model Registry as performed by the
training cell, which dumps the (batch_size, seq_length, vocab_size) tuple to
config.pkl, the (chars, vocab) pair to chars_vocab.pkl, and the trainable
parameters to a checkpoint keyed by the step number. -/
def Registry.save {P : Type} (cfg : ℕ × ℕ × ℕ) (chars : List Char)
    (vocab : List (Char × ℕ)) (params : P) (step : ℕ) : SaveDir P :=
  ⟨some cfg, some (chars, vocab), some ⟨step, params⟩⟩

/-- Modelled from the spec: Load of the Model Registry as performed by the
sampling cell, which unpickles the config tuple and the vocabulary pair and
restores the parameters of the most recent checkpoint, or yields nothing when
a piece is missing. -/
def Registry.load {P : Type} (d : SaveDir P) :
    Option ((ℕ × ℕ × ℕ) × (List Char × List (Char × ℕ)) × P) :=
  match d.config, d.chars_vocab, d.ckpt with
  | some cfg, some cv, some c => some (cfg, cv, c.params)
  | _, _, _ => none

/-- Errors observable from the sampling cell: a missing pickle file raises at
open, and Model.sample can raise IndexError. -/
inductive CellErr
  | fileNotFound
  | sampleErr (e : SampleErr)
deriving DecidableEq

/-- The sample() function of the notebook's sampling cell: set the TensorFlow
graph seed, unpickle config and vocabulary, build the inference model,
initialize its variables (a function of the graph seed), then, only when
tf.train.get_checkpoint_state finds a checkpoint, restore the parameters and
generate; with no checkpoint the conditional has no else branch and the call
completes silently with no output.  The forward oracle gives the one-step
inference graph of given parameters; zeroState gives cell.zero_state;
rand models the (unseeded) NumPy draw stream consumed by weighted_pick. -/
def sampleCell {P σ : Type} (forward : P → σ → ℕ → σ × List ℚ)
    (zeroState : P → σ) (tfSeed : ℕ) (tfInit : ℕ → P) (d : SaveDir P)
    (rand : ℕ → ℚ) (n : ℕ) (prime : List Char) :
    Except CellErr (Option (List Char)) :=
  match d.config, d.chars_vocab with
  | some _, some cv =>
    let _parms0 := tfInit tfSeed
    match d.ckpt with
    | some c =>
      match Model.sample (forward c.params) (zeroState c.params) cv.1
          (fun ch => (cv.2.lookup ch).getD 0) rand n prime with
      | .ok out => .ok (some out)
      | .error e => .error (.sampleErr e)
    | none => .ok none
  | _, _ => .error .fileNotFound

/-- Slot states of tf.train.AdamOptimizer: first and second moment vectors and
the step counter. -/
structure AdamState where
  m : List ℝ
  v : List ℝ
  t : ℕ

/-- Global norm of a gradient list, as tf.global_norm: the square root of the
sum of squared entries. -/
noncomputable def globalNorm (g : List ℝ) : ℝ :=
  Real.sqrt ((g.map (fun x => x ^ 2)).sum)

/-- tf.clip_by_global_norm at ceiling clip applied in the Model constructor:
every entry is scaled by clip divided by the larger of the global norm and
clip, so the list is unchanged when its global norm is at most clip and is
rescaled to global norm clip otherwise. -/
noncomputable def clipByGlobalNorm (clip : ℝ) (g : List ℝ) : List ℝ :=
  g.map (fun x => x * (clip / max (globalNorm g) clip))

/-- One apply_gradients of tf.train.AdamOptimizer with TensorFlow default
decay rates (beta1 0.9, beta2 0.999, epsilon 1e-8): update both moment
vectors, form the bias-corrected step size from the learning rate, and move
the parameters against the rescaled first moment. -/
noncomputable def adamApply (lr : ℚ) (g : List ℝ) (s : AdamState)
    (theta : List ℝ) : AdamState × List ℝ :=
  let t' := s.t + 1
  let m' := List.zipWith (fun mi gi => (9 / 10) * mi + (1 / 10) * gi) s.m g
  let v' := List.zipWith (fun vi gi => (999 / 1000) * vi + (1 / 1000) * gi ^ 2) s.v g
  let lrt := (lr : ℝ) * Real.sqrt (1 - (999 / 1000) ^ t') / (1 - (9 / 10) ^ t')
  let upd := List.zipWith (fun mi vi => mi / (Real.sqrt vi + 1 / 100000000)) m' v'
  (⟨m', v', t'⟩, List.zipWith (fun ti u => ti - lrt * u) theta upd)

/-- State of the training session: trainable parameters, Adam slots, the
learning rate variable, the recurrent state threaded across batches, and the
losses list appended to at every batch.  The loss type L is abstract because
the loop never inspects the loss value it records. -/
structure TrainState (σ L : Type) where
  params : List ℝ
  adam : AdamState
  lr : ℚ
  rnnState : σ
  losses : List L

/-- Modelled from the spec: the per-batch body of the training loop, left to
complete in the notebook.  Per the design, one sess.run feeds the b-th batch
and the carried recurrent state and evaluates cost, final_state and train_op
on the pre-update parameters: train_op applies Adam at the session learning
rate to the gradients clipped by global norm at ceiling 5 (both wired in the
Model constructor), the recurrent state is replaced by final_state, and the
scalar loss is appended to losses.  fwd gives (final_state, cost) and grad
the raw parameter gradients, both as oracles for the framework. -/
noncomputable def batchStep {σ L : Type} (fwd : List ℝ → σ → ℕ → σ × L)
    (grad : List ℝ → σ → ℕ → List ℝ) (st : TrainState σ L) (b : ℕ) :
    TrainState σ L :=
  let g := grad st.params st.rnnState b
  let res := adamApply st.lr (clipByGlobalNorm 5 g) st.adam st.params
  let fr := fwd st.params st.rnnState b
  ⟨res.2, res.1, st.lr, fr.1, st.losses ++ [fr.2]⟩

/-- Fold of batchStep over a list of batch indices, in order. -/
noncomputable def runBatches {σ L : Type} (fwd : List ℝ → σ → ℕ → σ × L)
    (grad : List ℝ → σ → ℕ → List ℝ) :
    TrainState σ L → List ℕ → TrainState σ L
  | st, [] => st
  | st, b :: bs => runBatches fwd grad (batchStep fwd grad st b) bs

/-- Epoch start of the training cell: state = sess.run(model.initial_state)
replaces the recurrent state by the zero state; everything else persists. -/
def resetState {σ L : Type} (zero : σ) (st : TrainState σ L) : TrainState σ L :=
  ⟨st.params, st.adam, st.lr, zero, st.losses⟩

/-- State reached after the first j batches of an epoch started from st: the
recurrent state is zeroed once, then batches 0, 1, ..., j - 1 are processed
in order. -/
noncomputable def stAfter {σ L : Type} (fwd : List ℝ → σ → ℕ → σ × L)
    (grad : List ℝ → σ → ℕ → List ℝ) (zero : σ) (st : TrainState σ L)
    (j : ℕ) : TrainState σ L :=
  runBatches fwd grad (resetState zero st) (List.range j)

/-- One epoch of the training cell: reset the batch pointer (so batch b of
every epoch carries the same data, indexed here by b), zero the recurrent
state once, then process all numB batches in order. -/
noncomputable def epochRun {σ L : Type} (fwd : List ℝ → σ → ℕ → σ × L)
    (grad : List ℝ → σ → ℕ → List ℝ) (zero : σ) (numB : ℕ)
    (st : TrainState σ L) : TrainState σ L :=
  stAfter fwd grad zero st numB

/-- Session start: global_variables_initializer yields the initial parameters,
Adam slots start at zero, the learning rate variable starts at the 0.0 of its
construction, and losses starts empty. -/
def initTrain {σ L : Type} (zero : σ) (initP : List ℝ) : TrainState σ L :=
  ⟨initP, ⟨initP.map (fun _ => 0), initP.map (fun _ => 0), 0⟩, 0, zero, []⟩

/-- sess.run(tf.assign(model.lr, x)): write the learning rate variable. -/
def assignLr {σ L : Type} (x : ℚ) (st : TrainState σ L) : TrainState σ L :=
  ⟨st.params, st.adam, x, st.rnnState, st.losses⟩

/-- The whole training session of the notebook: initialize variables, assign
learning rate 0.002 once, then run numE epochs of numB batches each. -/
noncomputable def runTraining {σ L : Type} (fwd : List ℝ → σ → ℕ → σ × L)
    (grad : List ℝ → σ → ℕ → List ℝ) (zero : σ) (numE numB : ℕ)
    (initP : List ℝ) : TrainState σ L :=
  (fun st => epochRun fwd grad zero numB st)^[numE]
    (assignLr (1 / 500) (initTrain zero initP))

/-- State in the middle of the session: after k whole epochs and j batch
steps into the next epoch. -/
noncomputable def sessionAt {σ L : Type} (fwd : List ℝ → σ → ℕ → σ × L)
    (grad : List ℝ → σ → ℕ → List ℝ) (zero : σ) (numB : ℕ)
    (initP : List ℝ) (k j : ℕ) : TrainState σ L :=
  stAfter fwd grad zero
    ((fun st => epochRun fwd grad zero numB st)^[k]
      (assignLr (1 / 500) (initTrain zero initP))) j

theorem cumsum_length (ws : List ℚ) : (cumsum ws).length = ws.length := by
  induction ws with
  | nil => rfl
  | cons w ws ih => simp [cumsum, ih]

theorem sum_mem_cumsum (ws : List ℚ) (h : ws ≠ []) : ws.sum ∈ cumsum ws := by
  induction ws with
  | nil => exact absurd rfl h
  | cons w ws ih =>
    cases ws with
    | nil => simp [cumsum]
    | cons w2 ws2 =>
      have hmem := ih (by simp)
      have : w + (w2 :: ws2).sum ∈ ((cumsum (w2 :: ws2)).map (fun x => w + x)) :=
        List.mem_map_of_mem _ hmem
      simpa [cumsum] using Or.inr this

theorem weightedPick_lt_length (ws : List ℚ) (r : ℚ) (hs : 0 < ws.sum) (hr : r < 1) :
    weighted_pick ws r < ws.length := by
  have hne : ws ≠ [] := by
    intro h
    rw [h] at hs
    simp at hs
  have hv : r * ws.sum ≤ ws.sum := by nlinarith
  have hmem := sum_mem_cumsum ws hne
  have hfind : List.findIdx (fun x => decide (r * ws.sum ≤ x)) (cumsum ws)
      < (cumsum ws).length :=
    List.findIdx_lt_length_of_exists ⟨ws.sum, hmem, decide_eq_true hv⟩
  rw [cumsum_length] at hfind
  exact hfind

theorem get?_some_getD {α : Type} (l : List α) (k : ℕ) (d : α) (h : k < l.length) :
    l.get? k = some (l.getD k d) := by
  rw [List.get?_eq_get h, List.getD_eq_getElem l d h]
  rfl

theorem genList_length {σ : Type} (step : σ → ℕ → σ × List ℚ) (chars : List Char)
    (vocab : Char → ℕ) (rand : ℕ → ℚ) :
    ∀ (m : ℕ) (s : σ) (c : Char) (n : ℕ),
      (genList step chars vocab rand s c m n).length = m := by
  intro m
  induction m with
  | zero => intro s c n; rfl
  | succ m ih => intro s c n; simp [genList, ih]

theorem genLoop_ok {σ : Type} (step : σ → ℕ → σ × List ℚ) (chars : List Char)
    (vocab : Char → ℕ) (rand : ℕ → ℚ)
    (hstep : ∀ s i, 0 < (step s i).2.sum ∧ (step s i).2.length = chars.length)
    (hrand : ∀ n, rand n < 1) :
    ∀ (m : ℕ) (s : σ) (c : Char) (ret : List Char) (n : ℕ),
      genLoop step chars vocab rand s c ret m n
        = .ok (ret ++ genList step chars vocab rand s c m n) := by
  intro m
  induction m with
  | zero => intro s c ret n; simp [genLoop, genList]
  | succ m ih =>
    intro s c ret n
    have hk : weighted_pick (step s (vocab c)).2 (rand n) < chars.length := by
      have h1 := weightedPick_lt_length (step s (vocab c)).2 (rand n)
        (hstep s (vocab c)).1 (hrand n)
      rw [(hstep s (vocab c)).2] at h1
      exact h1
    simp only [genLoop, genList]
    rw [get?_some_getD chars _ ' ' hk]
    simp [ih]

theorem runBatches_append {σ L : Type} (fwd : List ℝ → σ → ℕ → σ × L)
    (grad : List ℝ → σ → ℕ → List ℝ) (l1 l2 : List ℕ) :
    ∀ st : TrainState σ L,
      runBatches fwd grad st (l1 ++ l2)
        = runBatches fwd grad (runBatches fwd grad st l1) l2 := by
  induction l1 with
  | nil => intro st; rfl
  | cons b bs ih => intro st; simp only [List.cons_append, runBatches]; exact ih _

theorem stAfter_zero {σ L : Type} (fwd : List ℝ → σ → ℕ → σ × L)
    (grad : List ℝ → σ → ℕ → List ℝ) (zero : σ) (st : TrainState σ L) :
    stAfter fwd grad zero st 0 = resetState zero st := rfl

theorem stAfter_succ {σ L : Type} (fwd : List ℝ → σ → ℕ → σ × L)
    (grad : List ℝ → σ → ℕ → List ℝ) (zero : σ) (st : TrainState σ L) (j : ℕ) :
    stAfter fwd grad zero st (j + 1)
      = batchStep fwd grad (stAfter fwd grad zero st j) j := by
  unfold stAfter
  rw [List.range_succ, runBatches_append]
  rfl

theorem batchStep_lr {σ L : Type} (fwd : List ℝ → σ → ℕ → σ × L)
    (grad : List ℝ → σ → ℕ → List ℝ) (st : TrainState σ L) (b : ℕ) :
    (batchStep fwd grad st b).lr = st.lr := rfl

theorem batchStep_rnnState {σ L : Type} (fwd : List ℝ → σ → ℕ → σ × L)
    (grad : List ℝ → σ → ℕ → List ℝ) (st : TrainState σ L) (b : ℕ) :
    (batchStep fwd grad st b).rnnState = (fwd st.params st.rnnState b).1 := rfl

theorem batchStep_losses {σ L : Type} (fwd : List ℝ → σ → ℕ → σ × L)
    (grad : List ℝ → σ → ℕ → List ℝ) (st : TrainState σ L) (b : ℕ) :
    (batchStep fwd grad st b).losses
      = st.losses ++ [(fwd st.params st.rnnState b).2] := rfl

theorem batchStep_params {σ L : Type} (fwd : List ℝ → σ → ℕ → σ × L)
    (grad : List ℝ → σ → ℕ → List ℝ) (st : TrainState σ L) (b : ℕ) :
    (batchStep fwd grad st b).params
      = (adamApply st.lr (clipByGlobalNorm 5 (grad st.params st.rnnState b))
          st.adam st.params).2 := rfl

theorem runBatches_lr {σ L : Type} (fwd : List ℝ → σ → ℕ → σ × L)
    (grad : List ℝ → σ → ℕ → List ℝ) (l : List ℕ) :
    ∀ st : TrainState σ L, (runBatches fwd grad st l).lr = st.lr := by
  induction l with
  | nil => intro st; rfl
  | cons b bs ih => intro st; rw [runBatches, ih, batchStep_lr]

theorem runBatches_losses_length {σ L : Type} (fwd : List ℝ → σ → ℕ → σ × L)
    (grad : List ℝ → σ → ℕ → List ℝ) (l : List ℕ) :
    ∀ st : TrainState σ L,
      (runBatches fwd grad st l).losses.length = st.losses.length + l.length := by
  induction l with
  | nil => intro st; rfl
  | cons b bs ih =>
    intro st
    rw [runBatches, ih, batchStep_losses]
    simp
    omega

theorem stAfter_lr {σ L : Type} (fwd : List ℝ → σ → ℕ → σ × L)
    (grad : List ℝ → σ → ℕ → List ℝ) (zero : σ) (st : TrainState σ L) (j : ℕ) :
    (stAfter fwd grad zero st j).lr = st.lr := by
  unfold stAfter
  rw [runBatches_lr]
  rfl

theorem epochRun_lr {σ L : Type} (fwd : List ℝ → σ → ℕ → σ × L)
    (grad : List ℝ → σ → ℕ → List ℝ) (zero : σ) (numB : ℕ)
    (st : TrainState σ L) : (epochRun fwd grad zero numB st).lr = st.lr :=
  stAfter_lr fwd grad zero st numB

theorem epochRun_losses_length {σ L : Type} (fwd : List ℝ → σ → ℕ → σ × L)
    (grad : List ℝ → σ → ℕ → List ℝ) (zero : σ) (numB : ℕ)
    (st : TrainState σ L) :
    (epochRun fwd grad zero numB st).losses.length
      = st.losses.length + numB := by
  unfold epochRun stAfter
  rw [runBatches_losses_length]
  simp [resetState]

theorem iterate_epoch_lr {σ L : Type} (fwd : List ℝ → σ → ℕ → σ × L)
    (grad : List ℝ → σ → ℕ → List ℝ) (zero : σ) (numB : ℕ) (k : ℕ) :
    ∀ st : TrainState σ L,
      ((fun s => epochRun fwd grad zero numB s)^[k] st).lr = st.lr := by
  induction k with
  | zero => intro st; rfl
  | succ k ih =>
    intro st
    rw [Function.iterate_succ_apply', epochRun_lr, ih]

theorem stAfter_losses {σ L : Type} (fwd : List ℝ → σ → ℕ → σ × L)
    (grad : List ℝ → σ → ℕ → List ℝ) (zero : σ) (st : TrainState σ L) :
    ∀ j : ℕ,
      (stAfter fwd grad zero st j).losses
        = st.losses ++ (List.range j).map (fun b =>
            (fwd (stAfter fwd grad zero st b).params
              (stAfter fwd grad zero st b).rnnState b).2) := by
  intro j
  induction j with
  | zero => simp [stAfter_zero, resetState]
  | succ j ih =>
    rw [stAfter_succ, batchStep_losses, ih, List.range_succ]
    simp

/-- C1: for every non-empty prime and every count, Model.sample warms the
recurrent state up on every character of prime except the last (discarding
probabilities), then generates exactly num characters one step at a time, each
drawn from the step's probability row by weighted_pick (not argmax), and
returns prime concatenated with the generated characters; with count 0 it
returns the prime unchanged, and for a prime of length 1 the warm-up loop
performs zero iterations.  The step hypotheses model the softmax output (a
row of nonnegative entries of vocabulary length with positive sum) and the
rand hypothesis models the np.random.rand range. -/
theorem c1_sample_structure {σ : Type} (step : σ → ℕ → σ × List ℚ) (zero : σ)
    (chars : List Char) (vocab : Char → ℕ) (rand : ℕ → ℚ) (num : ℕ)
    (prime : List Char) (hp : prime ≠ [])
    (hstep : ∀ s i, (∀ x ∈ (step s i).2, 0 ≤ x) ∧ 0 < (step s i).2.sum
      ∧ (step s i).2.length = chars.length)
    (hrand : ∀ n, 0 ≤ rand n ∧ rand n < 1) :
    Model.sample step zero chars vocab rand num prime
        = .ok (prime ++ genList step chars vocab rand
            (warmup step vocab zero prime.dropLast) (prime.getLast hp) num 0)
      ∧ (genList step chars vocab rand (warmup step vocab zero prime.dropLast)
          (prime.getLast hp) num 0).length = num
      ∧ Model.sample step zero chars vocab rand 0 prime = .ok prime
      ∧ ∀ c : Char, warmup step vocab zero (List.dropLast [c]) = zero := by
  have hstep2 : ∀ s i, 0 < (step s i).2.sum ∧ (step s i).2.length = chars.length :=
    fun s i => ⟨(hstep s i).2.1, (hstep s i).2.2⟩
  have hrand2 : ∀ n, rand n < 1 := fun n => (hrand n).2
  refine ⟨?_, genList_length step chars vocab rand num _ _ 0, ?_, fun c => rfl⟩
  · unfold Model.sample
    rw [List.getLast?_eq_getLast_of_ne_nil hp]
    exact genLoop_ok step chars vocab rand hstep2 hrand2 num _ _ prime 0
  · unfold Model.sample
    rw [List.getLast?_eq_getLast_of_ne_nil hp]
    rfl

/-- Witness for C1 at a concrete one-character prime and a two-character
vocabulary with a uniform probability row. -/
theorem c1_witness :
    (['a'] : List Char) ≠ []
      ∧ Model.sample (fun (_ : Unit) (_ : ℕ) => ((), [(1 : ℚ), 1])) ()
          ['a', 'b'] (fun _ => 0) (fun _ => 0) 0 ['a'] = .ok ['a'] :=
  ⟨by decide,
    (c1_sample_structure (fun (_ : Unit) (_ : ℕ) => ((), [(1 : ℚ), 1])) ()
      ['a', 'b'] (fun _ => 0) (fun _ => 0) 0 ['a'] (by decide)
      (by
        intro s i
        refine ⟨?_, by norm_num, rfl⟩
        intro x hx
        simp at hx
        subst hx
        norm_num)
      (fun _ => ⟨le_refl 0, by norm_num⟩)).2.2.1⟩

/-- C2: within one epoch the recurrent state is zeroed exactly once at the
start, the state fed into batch k + 1 equals the final state returned by
batch k and is never reset mid-epoch, exactly numB batches are visited in a
fixed order, and the per-batch losses are appended in batch order. -/
theorem c2_epoch_state_threading {σ L : Type} (fwd : List ℝ → σ → ℕ → σ × L)
    (grad : List ℝ → σ → ℕ → List ℝ) (zero : σ) (numB : ℕ)
    (st : TrainState σ L) :
    (stAfter fwd grad zero st 0).rnnState = zero
      ∧ (∀ k, (stAfter fwd grad zero st (k + 1)).rnnState
          = (fwd (stAfter fwd grad zero st k).params
              (stAfter fwd grad zero st k).rnnState k).1)
      ∧ epochRun fwd grad zero numB st = stAfter fwd grad zero st numB
      ∧ (epochRun fwd grad zero numB st).losses
          = st.losses ++ (List.range numB).map (fun b =>
              (fwd (stAfter fwd grad zero st b).params
                (stAfter fwd grad zero st b).rnnState b).2)
      ∧ (epochRun fwd grad zero numB st).losses.length
          = st.losses.length + numB := by
  refine ⟨rfl, fun k => ?_, rfl, stAfter_losses fwd grad zero st numB,
    epochRun_losses_length fwd grad zero numB st⟩
  rw [stAfter_succ, batchStep_rnnState]

/-- C3: at every batch step of the training session the learning rate in
effect is 0.002 (set once by the assign before the epoch loop and never
written again), and the parameter update of every batch is Adam applied at
that rate to the gradients clipped in global norm at the ceiling 5, as wired
in the Model constructor. -/
theorem c3_optimizer_wiring {σ L : Type} (fwd : List ℝ → σ → ℕ → σ × L)
    (grad : List ℝ → σ → ℕ → List ℝ) (zero : σ) (numE numB : ℕ)
    (initP : List ℝ) :
    (∀ k j, (sessionAt fwd grad zero numB initP k j).lr = 1 / 500)
      ∧ (∀ k j, (sessionAt fwd grad zero numB initP k (j + 1)).params
          = (adamApply (1 / 500)
              (clipByGlobalNorm 5
                (grad (sessionAt fwd grad zero numB initP k j).params
                  (sessionAt fwd grad zero numB initP k j).rnnState j))
              (sessionAt fwd grad zero numB initP k j).adam
              (sessionAt fwd grad zero numB initP k j).params).2)
      ∧ runTraining fwd grad zero numE numB initP
          = (fun st => epochRun fwd grad zero numB st)^[numE]
              (assignLr (1 / 500) (initTrain zero initP)) := by
  have hlr : ∀ k j, (sessionAt fwd grad zero numB initP k j).lr = 1 / 500 := by
    intro k j
    unfold sessionAt
    rw [stAfter_lr, iterate_epoch_lr]
    rfl
  refine ⟨hlr, fun k j => ?_, rfl⟩
  have hsucc : sessionAt fwd grad zero numB initP k (j + 1)
      = batchStep fwd grad (sessionAt fwd grad zero numB initP k j) j :=
    stAfter_succ fwd grad zero _ j
  rw [hsucc, batchStep_params, hlr k j]

/-- C4: saving then loading a checkpoint round-trips exactly: the config
tuple and the vocabulary read back equal the persisted ones, and the restored
parameters reproduce identical forward outputs on any fixed input. -/
theorem c4_registry_roundtrip {P : Type} (cfg : ℕ × ℕ × ℕ) (chars : List Char)
    (vocab : List (Char × ℕ)) (params : P) (step : ℕ) :
    Registry.load (Registry.save cfg chars vocab params step)
        = some (cfg, (chars, vocab), params)
      ∧ ∀ (σ : Type) (forward : P → σ → ℕ → σ × List ℚ) (s : σ) (i : ℕ),
          (Registry.load (Registry.save cfg chars vocab params step)).map
              (fun t => forward t.2.2 s i)
            = some (forward params s i) :=
  ⟨rfl, fun _ _ _ _ => rfl⟩

/-- C5 counterexample: with the same fixed graph seed 100, the same stored
parameters, and the same prime, two runs that consume different NumPy draw
streams produce different outputs; the seed the code sets does not govern the
sampling draws, so a fixed seed alone does not make two independent runs
identical. -/
theorem weightedPick_eval_zero : weighted_pick [(1 : ℚ), 1] 0 = 0 := by
  unfold weighted_pick
  rw [show cumsum [(1 : ℚ), 1] = [1, 2] from by norm_num [cumsum]]
  rw [List.findIdx_cons]
  have h : ((0 : ℚ) * [(1 : ℚ), 1].sum ≤ 1) := by norm_num
  rw [decide_eq_true h]
  rfl

theorem weightedPick_eval_three_quarters :
    weighted_pick [(1 : ℚ), 1] (3 / 4) = 1 := by
  unfold weighted_pick
  rw [show cumsum [(1 : ℚ), 1] = [1, 2] from by norm_num [cumsum]]
  rw [List.findIdx_cons]
  have h1 : ¬ ((3 / 4 : ℚ) * [(1 : ℚ), 1].sum ≤ 1) := by norm_num
  rw [decide_eq_false h1]
  rw [show (cond false 0
      (List.findIdx (fun x => decide ((3 / 4 : ℚ) * [(1 : ℚ), 1].sum ≤ x)) [2] + 1))
    = List.findIdx (fun x => decide ((3 / 4 : ℚ) * [(1 : ℚ), 1].sum ≤ x)) [2] + 1 from rfl]
  rw [List.findIdx_cons]
  have h2 : ((3 / 4 : ℚ) * [(1 : ℚ), 1].sum ≤ 2) := by norm_num
  rw [decide_eq_true h2]
  rfl

theorem sample_eval_zero :
    Model.sample (fun (_ : Unit) (_ : ℕ) => ((), [(1 : ℚ), 1])) () ['a', 'b']
      (fun ch => ((([('a', 0), ('b', 1)] : List (Char × ℕ))).lookup ch).getD 0)
      (fun _ => 0) 1 ['a'] = .ok ['a', 'a'] := by
  show genLoop (fun (_ : Unit) (_ : ℕ) => ((), [(1 : ℚ), 1])) ['a', 'b']
    (fun ch => ((([('a', 0), ('b', 1)] : List (Char × ℕ))).lookup ch).getD 0)
    (fun _ => 0) () 'a' ['a'] 1 0 = Except.ok ['a', 'a']
  rw [show (1 : ℕ) = 0 + 1 from rfl, genLoop, weightedPick_eval_zero]
  rfl

theorem sample_eval_three_quarters :
    Model.sample (fun (_ : Unit) (_ : ℕ) => ((), [(1 : ℚ), 1])) () ['a', 'b']
      (fun ch => ((([('a', 0), ('b', 1)] : List (Char × ℕ))).lookup ch).getD 0)
      (fun _ => (3 : ℚ) / 4) 1 ['a'] = .ok ['a', 'b'] := by
  show genLoop (fun (_ : Unit) (_ : ℕ) => ((), [(1 : ℚ), 1])) ['a', 'b']
    (fun ch => ((([('a', 0), ('b', 1)] : List (Char × ℕ))).lookup ch).getD 0)
    (fun _ => (3 : ℚ) / 4) () 'a' ['a'] 1 0 = Except.ok ['a', 'b']
  rw [show (1 : ℕ) = 0 + 1 from rfl, genLoop, weightedPick_eval_three_quarters]
  rfl

theorem c5_counterexample :
    sampleCell (fun (_ : Unit) (_ : Unit) (_ : ℕ) => ((), [(1 : ℚ), 1]))
        (fun _ => ()) 100 (fun _ => ())
        ⟨some (1, 1, 2), some (['a', 'b'], [('a', 0), ('b', 1)]), some ⟨0, ()⟩⟩
        (fun _ => 0) 1 ['a']
      ≠ sampleCell (fun (_ : Unit) (_ : Unit) (_ : ℕ) => ((), [(1 : ℚ), 1]))
        (fun _ => ()) 100 (fun _ => ())
        ⟨some (1, 1, 2), some (['a', 'b'], [('a', 0), ('b', 1)]), some ⟨0, ()⟩⟩
        (fun _ => (3 : ℚ) / 4) 1 ['a'] := by
  intro h
  have h1 : sampleCell (fun (_ : Unit) (_ : Unit) (_ : ℕ) => ((), [(1 : ℚ), 1]))
      (fun _ => ()) 100 (fun _ => ())
      ⟨some (1, 1, 2), some (['a', 'b'], [('a', 0), ('b', 1)]), some ⟨0, ()⟩⟩
      (fun _ => 0) 1 ['a'] = .ok (some ['a', 'a']) := by
    show (match Model.sample (fun (_ : Unit) (_ : ℕ) => ((), [(1 : ℚ), 1])) ()
        ['a', 'b'] (fun ch => ((([('a', 0), ('b', 1)] : List (Char × ℕ))).lookup ch).getD 0)
        (fun _ => 0) 1 ['a'] with
      | .ok out => (Except.ok (some out) : Except CellErr (Option (List Char)))
      | .error e => Except.error (CellErr.sampleErr e)) = Except.ok (some ['a', 'a'])
    rw [sample_eval_zero]
  have h2 : sampleCell (fun (_ : Unit) (_ : Unit) (_ : ℕ) => ((), [(1 : ℚ), 1]))
      (fun _ => ()) 100 (fun _ => ())
      ⟨some (1, 1, 2), some (['a', 'b'], [('a', 0), ('b', 1)]), some ⟨0, ()⟩⟩
      (fun _ => (3 : ℚ) / 4) 1 ['a'] = .ok (some ['a', 'b']) := by
    show (match Model.sample (fun (_ : Unit) (_ : ℕ) => ((), [(1 : ℚ), 1])) ()
        ['a', 'b'] (fun ch => ((([('a', 0), ('b', 1)] : List (Char × ℕ))).lookup ch).getD 0)
        (fun _ => (3 : ℚ) / 4) 1 ['a'] with
      | .ok out => (Except.ok (some out) : Except CellErr (Option (List Char)))
      | .error e => Except.error (CellErr.sampleErr e)) = Except.ok (some ['a', 'b'])
    rw [sample_eval_three_quarters]
  rw [h1, h2] at h
  simp at h

/-- C5 amended: the sampling output is a function of the parameters, the
prime, the count and the NumPy draw stream alone; the TensorFlow graph seed
set by the sampling cell has no influence on the generated sequence, because
the restore overwrites every seed-initialized variable, so reproducibility
holds exactly when the NumPy draw stream is fixed. -/
theorem c5_amended_seed_independent {P σ : Type}
    (forward : P → σ → ℕ → σ × List ℚ) (zeroState : P → σ) (seed1 seed2 : ℕ)
    (tfInit : ℕ → P) (d : SaveDir P) (rand : ℕ → ℚ) (n : ℕ)
    (prime : List Char) :
    sampleCell forward zeroState seed1 tfInit d rand n prime
      = sampleCell forward zeroState seed2 tfInit d rand n prime := rfl

/-- C6 counterexample: with a loss oracle that yields a non-finite loss
(modelled by none) already at the first batch, the one-epoch three-batch
training run still records all three losses, so it continues to the following
batches instead of halting at the first non-finite loss. -/
theorem c6_counterexample :
    (runTraining (fun _ _ _ => ((), (none : Option ℚ)))
      (fun _ _ _ => ([] : List ℝ)) () 1 3 []).losses = [none, none, none] := rfl

/-- C6 amended: the training loop never inspects the loss it records; for
every loss oracle, finite or not, the run processes all numE * numB batches
and appends every loss, with no halt and no diagnostic. -/
theorem c6_amended_no_halt {σ L : Type} (fwd : List ℝ → σ → ℕ → σ × L)
    (grad : List ℝ → σ → ℕ → List ℝ) (zero : σ) (numE numB : ℕ)
    (initP : List ℝ) :
    (runTraining fwd grad zero numE numB initP).losses.length = numE * numB := by
  unfold runTraining
  induction numE with
  | zero => simp [Function.iterate_zero_apply, assignLr, initTrain]
  | succ k ih =>
    rw [Function.iterate_succ_apply', epochRun_losses_length, ih]
    ring

/-- C7 counterexample: the constructor succeeds with vocab_size 0 and with
seq_length 0 instead of failing with a ConfigError. -/
theorem c7_counterexample :
    Model.init 32 50 0 true = .ok ⟨32, 50, 0, 128, 1, 0, 5⟩
      ∧ Model.init 32 0 65 true = .ok ⟨32, 0, 65, 128, 1, 0, 5⟩ := ⟨rfl, rfl⟩

/-- C7 amended: the constructor performs no validation of vocab_size or
seq_length and never fails with a ConfigError; for every input it succeeds,
recording the given dimensions, with batch_size and seq_length forced to 1
when training is disabled. -/
theorem c7_amended_no_validation (batch_size seq_length vocab_size : ℤ)
    (training : Bool) :
    Model.init batch_size seq_length vocab_size training
      = .ok ⟨if training then batch_size else 1,
          if training then seq_length else 1, vocab_size, 128, 1, 0, 5⟩ := rfl

/-- C8 counterexample: on a save directory holding config and vocabulary but
no checkpoint, the sampling cell returns ok none: the conditional guarding
generation has no else branch, so the call completes silently with no output
and signals no NotFound error. -/
theorem c8_counterexample :
    sampleCell (fun (_ : Unit) (_ : Unit) (_ : ℕ) => ((), [(1 : ℚ)]))
        (fun _ => ()) 100 (fun _ => ())
        ⟨some (1, 1, 1), some (['a'], [('a', 0)]), none⟩ (fun _ => 0) 5 ['a']
      = .ok none := rfl

/-- C8 amended: when no checkpoint exists the sampling cell completes
silently with no generated output and no error of any kind; when a checkpoint
exists, generation proceeds by Model.sample with the restored parameters. -/
theorem c8_amended_silent_skip {P σ : Type}
    (forward : P → σ → ℕ → σ × List ℚ) (zeroState : P → σ) (seed : ℕ)
    (tfInit : ℕ → P) (cfg : ℕ × ℕ × ℕ) (chars : List Char)
    (vocabL : List (Char × ℕ)) (rand : ℕ → ℚ) (n : ℕ) (prime : List Char) :
    sampleCell forward zeroState seed tfInit
        ⟨some cfg, some (chars, vocabL), none⟩ rand n prime = .ok none
      ∧ ∀ (s : ℕ) (p : P),
          sampleCell forward zeroState seed tfInit
              ⟨some cfg, some (chars, vocabL), some ⟨s, p⟩⟩ rand n prime
            = match Model.sample (forward p) (zeroState p) chars
                (fun ch => (vocabL.lookup ch).getD 0) rand n prime with
              | .ok out => .ok (some out)
              | .error e => .error (.sampleErr e) :=
  ⟨rfl, fun _ _ => rfl⟩

/-- C9: for every weight list with nonnegative entries and strictly positive
sum, and every draw in the half-open unit interval as produced by
np.random.rand, weighted_pick returns an index below the length of the
weights, so the lookup chars sample in the generation loop stays in bounds
when the probability row has the vocabulary length. -/
theorem c9_weighted_pick_in_range (ws : List ℚ) (r : ℚ) (hw : ∀ x ∈ ws, 0 ≤ x)
    (hs : 0 < ws.sum) (hr0 : 0 ≤ r) (hr1 : r < 1) :
    weighted_pick ws r < ws.length :=
  weightedPick_lt_length ws r hs hr1

/-- Witness for C9 at a uniform two-entry weight list and the draw one
half. -/
theorem c9_witness :
    (∀ x ∈ [(1 : ℚ), 1], 0 ≤ x) ∧ 0 < [(1 : ℚ), 1].sum
      ∧ (0 : ℚ) ≤ 0 ∧ (0 : ℚ) < 1
      ∧ weighted_pick [(1 : ℚ), 1] 0 < 2 :=
  ⟨by intro x hx; simp at hx; subst hx; norm_num, by norm_num, le_refl 0, by norm_num,
    c9_weighted_pick_in_range [(1 : ℚ), 1] 0
      (by intro x hx; simp at hx; subst hx; norm_num)
      (by norm_num) (le_refl 0) (by norm_num)⟩

/-- C10: calling Model.sample with an empty prime fails with the IndexError
of the access prime[-1] before any character is generated or any output
produced, while the warm-up loop over prime drop-last performs zero
iterations and does not fail. -/
theorem c10_empty_prime {σ : Type} (step : σ → ℕ → σ × List ℚ) (zero : σ)
    (chars : List Char) (vocab : Char → ℕ) (rand : ℕ → ℚ) (num : ℕ) :
    Model.sample step zero chars vocab rand num [] = .error .indexError
      ∧ warmup step vocab zero (List.dropLast ([] : List Char)) = zero :=
  ⟨rfl, rfl⟩
